import Mathlib

set_option maxHeartbeats 1000000

/-!
Shallow embedding of the asset-management core of `src/main.py`: the
domain records (`Asset`, `Maintenance`, `InventoryItem`), their
serialization contracts (`to_dict` / `from_dict`), the depreciation
engine (`Asset.depreciate`), the JSON-file-backed repository services
and the file handler with its `error_handler` decorator.

Conventions of the embedding:

* Python `Decimal` arithmetic on money quantities is modelled as exact
  rational arithmetic (`ℚ`), following the exact-decimal reading of the
  arithmetic; the continuous-real exponentiation of the
  declining-balance branch (`Decimal.__pow__` with a non-integral
  exponent, computed via exp/ln) is modelled with `Real.rpow`, so the
  field it is stored into (`current_value`) is carried in `ℝ`.
* `datetime.date` is modelled by its proleptic-Gregorian ordinal
  (`ℤ`): Python's `(a - b).days` is ordinal subtraction, and ISO-8601
  rendering/parsing (`isoformat` / `fromisoformat`) is a bijection
  between valid dates and their strings, hence modelled as the identity
  on ordinals.
* `uuid.UUID` is opaque; `str(uuid)` / `UUID(s)` is a bijection with
  canonical strings, hence modelled as the identity.
* `str(Decimal)` / `Decimal(s)` round-trips exactly, hence serialized
  decimal fields are modelled as the rational itself; enumeration
  serialization goes through the actual label strings, which is where
  `from_dict` can fail.
* A raised Python exception is `Except.error`; the depreciation
  computation, which can raise from `Decimal` arithmetic, returns
  `Option` (`none` = an exception escapes, leaving the asset unchanged,
  since each branch writes `current_value` only once at the end).
-/

/-- `uuid.UUID`: an opaque 128-bit identifier. -/
structure UUID where
  val : ℕ
  deriving DecidableEq

/-- `class AssetStatus(Enum)`. -/
inductive AssetStatus
  | active
  | inactive
  | maintenance
  | disposed
  deriving DecidableEq

/-- The `.value` label of an `AssetStatus` member. -/
def AssetStatus.value : AssetStatus → String
  | .active => "Active"
  | .inactive => "Inactive"
  | .maintenance => "Under Maintenance"
  | .disposed => "Disposed"

/-- `AssetStatus(s)`: look a member up by its label, raising
(`none`) on an unrecognized label. -/
def AssetStatus.fromValue (s : String) : Option AssetStatus :=
  if s = "Active" then some .active
  else if s = "Inactive" then some .inactive
  else if s = "Under Maintenance" then some .maintenance
  else if s = "Disposed" then some .disposed
  else none

/-- `class DepreciationMethod(Enum)`. -/
inductive DepreciationMethod
  | straight_line
  | declining_balance
  | sum_of_years_digits
  deriving DecidableEq

/-- The `.value` label of a `DepreciationMethod` member. -/
def DepreciationMethod.value : DepreciationMethod → String
  | .straight_line => "Straight Line"
  | .declining_balance => "Declining Balance"
  | .sum_of_years_digits => "Sum of Years Digits"

/-- `DepreciationMethod(s)`: look a member up by its label. -/
def DepreciationMethod.fromValue (s : String) : Option DepreciationMethod :=
  if s = "Straight Line" then some .straight_line
  else if s = "Declining Balance" then some .declining_balance
  else if s = "Sum of Years Digits" then some .sum_of_years_digits
  else none

/-- `class MaintenanceType(Enum)`. -/
inductive MaintenanceType
  | preventive
  | corrective
  | predictive
  deriving DecidableEq

/-- The `.value` label of a `MaintenanceType` member. -/
def MaintenanceType.value : MaintenanceType → String
  | .preventive => "Preventive"
  | .corrective => "Corrective"
  | .predictive => "Predictive"

/-- `MaintenanceType(s)`: look a member up by its label. -/
def MaintenanceType.fromValue (s : String) : Option MaintenanceType :=
  if s = "Preventive" then some .preventive
  else if s = "Corrective" then some .corrective
  else if s = "Predictive" then some .predictive
  else none

/-- `class MaintenanceStatus(Enum)`. -/
inductive MaintenanceStatus
  | scheduled
  | in_progress
  | completed
  | cancelled
  deriving DecidableEq

/-- The `.value` label of a `MaintenanceStatus` member. -/
def MaintenanceStatus.value : MaintenanceStatus → String
  | .scheduled => "Scheduled"
  | .in_progress => "In Progress"
  | .completed => "Completed"
  | .cancelled => "Cancelled"

/-- `MaintenanceStatus(s)`: look a member up by its label. -/
def MaintenanceStatus.fromValue (s : String) : Option MaintenanceStatus :=
  if s = "Scheduled" then some .scheduled
  else if s = "In Progress" then some .in_progress
  else if s = "Completed" then some .completed
  else if s = "Cancelled" then some .cancelled
  else none

/-- `class InventoryStatus(Enum)`. -/
inductive InventoryStatus
  | in_stock
  | out_of_stock
  | reserved
  deriving DecidableEq

/-- The `.value` label of an `InventoryStatus` member. -/
def InventoryStatus.value : InventoryStatus → String
  | .in_stock => "In Stock"
  | .out_of_stock => "Out of Stock"
  | .reserved => "Reserved"

/-- `InventoryStatus(s)`: look a member up by its label. -/
def InventoryStatus.fromValue (s : String) : Option InventoryStatus :=
  if s = "In Stock" then some .in_stock
  else if s = "Out of Stock" then some .out_of_stock
  else if s = "Reserved" then some .reserved
  else none

/-- The Python exceptions the modelled core can raise. -/
inductive PyErr
  /-- `AssetManagementError(f"... with id ... not found")` (an `ERPError`). -/
  | assetManagementNotFound
  /-- `InvalidDataError` from the `validate_input` decorator (an `ERPError`). -/
  | invalidData
  /-- Built-in `OSError` from failing to read/write the backing file. -/
  | osError
  /-- `json.JSONDecodeError` (a `ValueError`) from malformed JSON. -/
  | jsonDecode
  /-- `decimal.InvalidOperation` / `decimal.DivisionByZero` from `Decimal` arithmetic. -/
  | invalidOperation
  deriving DecidableEq

/-- Whether the exception is an `ERPError` (the `error_handler` decorator
turns those into a 400 response and every other exception into a 500). -/
def PyErr.isERP : PyErr → Bool
  | .assetManagementNotFound => true
  | .invalidData => true
  | _ => false

/-- `@dataclass class Maintenance`. -/
structure Maintenance where
  asset_id : UUID
  date : ℤ
  description : String
  cost : ℚ
  performed_by : String
  maintenance_type : MaintenanceType
  id : UUID
  status : MaintenanceStatus
  notes : Option String
  deriving DecidableEq

/-- The plain dict produced for a `Maintenance` by `dataclasses.asdict`
(used inside `Asset.to_dict` for the nested `maintenance_records`):
field values are kept as-is (deep-copied), nothing is stringified. -/
structure MaintenanceDoc where
  asset_id : UUID
  date : ℤ
  description : String
  cost : ℚ
  performed_by : String
  maintenance_type : MaintenanceType
  id : UUID
  status : MaintenanceStatus
  notes : Option String
  deriving DecidableEq

/-- `dataclasses.asdict` on a `Maintenance` object. -/
def Maintenance.asdict (m : Maintenance) : MaintenanceDoc :=
  { asset_id := m.asset_id, date := m.date, description := m.description,
    cost := m.cost, performed_by := m.performed_by,
    maintenance_type := m.maintenance_type, id := m.id, status := m.status,
    notes := m.notes }

/-- An element of the dynamically-typed Python list
`Asset.maintenance_records`: either a `Maintenance` object (as built by
the constructor) or a plain dict (as left behind by
`Asset.from_dict`, which never rebuilds `Maintenance` objects).
Python's `Maintenance.__eq__` against a dict is `False`, which is the
constructor distinction here. -/
inductive MRec
  | obj (m : Maintenance)
  | doc (d : MaintenanceDoc)
  deriving DecidableEq

/-- `dataclasses.asdict` on a list element: a dataclass instance is
converted to a dict, a dict is (deep-copied and) kept. -/
def MRec.asdict : MRec → MaintenanceDoc
  | .obj m => m.asdict
  | .doc d => d

/-- `@dataclass class Asset`.  `current_value` is carried in `ℝ` because
the declining-balance branch stores a continuous-real power into it. -/
structure Asset where
  name : String
  purchase_date : ℤ
  purchase_price : ℚ
  current_value : ℝ
  location : String
  category : String
  useful_life_years : ℤ
  id : UUID
  status : AssetStatus
  depreciation_method : DepreciationMethod
  salvage_value : ℚ
  serial_number : Option String
  description : Option String
  maintenance_records : List MRec

/-- The dict produced by `Asset.to_dict`: `id`, dates and decimals are
stringified (modelled by their bijective images), the two enums become
their label strings, and `maintenance_records` is whatever
`dataclasses.asdict` produced — a list of plain dicts. -/
structure AssetSerDoc where
  name : String
  purchase_date : ℤ
  purchase_price : ℚ
  current_value : ℝ
  location : String
  category : String
  useful_life_years : ℤ
  id : UUID
  status : String
  depreciation_method : String
  salvage_value : ℚ
  serial_number : Option String
  description : Option String
  maintenance_records : List MaintenanceDoc

/-- `Asset.to_dict`. -/
def Asset.to_dict (a : Asset) : AssetSerDoc :=
  { name := a.name, purchase_date := a.purchase_date,
    purchase_price := a.purchase_price, current_value := a.current_value,
    location := a.location, category := a.category,
    useful_life_years := a.useful_life_years, id := a.id,
    status := a.status.value,
    depreciation_method := a.depreciation_method.value,
    salvage_value := a.salvage_value, serial_number := a.serial_number,
    description := a.description,
    maintenance_records := a.maintenance_records.map MRec.asdict }

/-- `Asset.from_dict`: parses the stringified fields back and coerces
the enum labels (raising on an unrecognized label); the
`maintenance_records` entries are passed to the constructor unchanged,
i.e. they stay plain dicts. -/
def Asset.from_dict (d : AssetSerDoc) : Option Asset :=
  match AssetStatus.fromValue d.status,
        DepreciationMethod.fromValue d.depreciation_method with
  | some st, some dm =>
      some { name := d.name, purchase_date := d.purchase_date,
             purchase_price := d.purchase_price,
             current_value := d.current_value, location := d.location,
             category := d.category,
             useful_life_years := d.useful_life_years, id := d.id,
             status := st, depreciation_method := dm,
             salvage_value := d.salvage_value,
             serial_number := d.serial_number, description := d.description,
             maintenance_records := d.maintenance_records.map MRec.doc }
  | _, _ => none

/-- The dict produced by `Maintenance.to_dict`. -/
structure MaintenanceSerDoc where
  asset_id : UUID
  date : ℤ
  description : String
  cost : ℚ
  performed_by : String
  maintenance_type : String
  id : UUID
  status : String
  notes : Option String
  deriving DecidableEq

/-- `Maintenance.to_dict`. -/
def Maintenance.to_dict (m : Maintenance) : MaintenanceSerDoc :=
  { asset_id := m.asset_id, date := m.date, description := m.description,
    cost := m.cost, performed_by := m.performed_by,
    maintenance_type := m.maintenance_type.value, id := m.id,
    status := m.status.value, notes := m.notes }

/-- `Maintenance.from_dict`. -/
def Maintenance.from_dict (d : MaintenanceSerDoc) : Option Maintenance :=
  match MaintenanceType.fromValue d.maintenance_type,
        MaintenanceStatus.fromValue d.status with
  | some mt, some st =>
      some { asset_id := d.asset_id, date := d.date,
             description := d.description, cost := d.cost,
             performed_by := d.performed_by, maintenance_type := mt,
             id := d.id, status := st, notes := d.notes }
  | _, _ => none

/-- `@dataclass class InventoryItem`. -/
structure InventoryItem where
  name : String
  quantity : ℤ
  cost_per_item : ℚ
  status : InventoryStatus
  id : UUID
  deriving DecidableEq

/-- The dict produced by `InventoryItem.to_dict`. -/
structure InventorySerDoc where
  name : String
  quantity : ℤ
  cost_per_item : ℚ
  status : String
  id : UUID
  deriving DecidableEq

/-- `InventoryItem.to_dict`. -/
def InventoryItem.to_dict (i : InventoryItem) : InventorySerDoc :=
  { name := i.name, quantity := i.quantity, cost_per_item := i.cost_per_item,
    status := i.status.value, id := i.id }

/-- `InventoryItem.from_dict`. -/
def InventoryItem.from_dict (d : InventorySerDoc) : Option InventoryItem :=
  match InventoryStatus.fromValue d.status with
  | some st =>
      some { name := d.name, quantity := d.quantity,
             cost_per_item := d.cost_per_item, status := st, id := d.id }
  | none => none

/-- `Decimal((as_of_date - self.purchase_date).days) / Decimal(365.25)`.
`Decimal(365.25)` is the exact value `365.25` (it is a dyadic rational,
so the float is exact). -/
def yearsPassed (purchase_date as_of_date : ℤ) : ℚ :=
  ((as_of_date - purchase_date : ℤ) : ℚ) / (365.25 : ℚ)

/-- Python `Decimal.__pow__` on finite operands, idealized over the
reals: a positive base uses continuous-real exponentiation; a zero or
negative base is only defined for an integral exponent (zero base
additionally for a positive non-integral one, giving `0`); everything
else raises (`decimal.InvalidOperation` / `DivisionByZero`). -/
noncomputable def decPow (b e : ℚ) : Option ℝ :=
  if 0 < b then some (Real.rpow (b : ℝ) (e : ℝ))
  else if b = 0 then (if 0 < e then some 0 else none)
  else if e.den = 1 then some ((b : ℝ) ^ e.num) else none

/-- `sum(range(1, self.useful_life_years + 1))` (summing `0` as well
changes nothing). -/
def sum_of_years (ul : ℤ) : ℤ :=
  ∑ i ∈ Finset.range (ul.toNat + 1), (i : ℤ)

/-- The value `Asset.depreciate` writes into `current_value` for an
Active asset, or `none` if the `Decimal` arithmetic raises: the guard
clamps to the salvage value once `years_passed` exceeds the useful
life, and otherwise the selected method's formula runs.  The
sum-of-years-digits branch sums over `range(int(years_passed))`;
`int()` truncates toward zero, which for the values below (where a
negative floor gives an empty range anyway) is `Int.toNat ∘ Int.floor`. -/
noncomputable def Asset.depValue (a : Asset) (as_of_date : ℤ) : Option ℝ :=
  let years_passed := yearsPassed a.purchase_date as_of_date
  if (a.useful_life_years : ℚ) < years_passed then
    some ((a.salvage_value : ℝ))
  else
    match a.depreciation_method with
    | .straight_line =>
        if a.useful_life_years = 0 then none
        else
          let annual_depreciation :=
            (a.purchase_price - a.salvage_value) / (a.useful_life_years : ℚ)
          some (((max (a.purchase_price - annual_depreciation * years_passed)
            a.salvage_value : ℚ) : ℝ))
    | .declining_balance =>
        if a.useful_life_years = 0 then none
        else
          let rate := (2 : ℚ) / (a.useful_life_years : ℚ)
          (decPow (1 - rate) years_passed).map
            (fun p => max ((a.purchase_price : ℝ) * p) ((a.salvage_value : ℝ)))
    | .sum_of_years_digits =>
        let n := (⌊years_passed⌋).toNat
        if sum_of_years a.useful_life_years = 0 ∧ n ≠ 0 then none
        else
          let total_depreciation : ℚ :=
            ∑ year ∈ Finset.range n,
              ((a.useful_life_years - (year : ℤ) : ℤ) : ℚ) /
                ((sum_of_years a.useful_life_years : ℤ) : ℚ) *
                (a.purchase_price - a.salvage_value)
          some (((max (a.purchase_price - total_depreciation)
            a.salvage_value : ℚ) : ℝ))

/-- `Asset.depreciate(self, as_of_date)`: a non-Active asset returns
immediately (unchanged); an Active asset recomputes `current_value`
from the stored parameters (never reading the old `current_value`).
`none` models an escaping `Decimal` exception, which also leaves the
asset unchanged since each branch assigns `current_value` exactly once,
after computing the whole right-hand side. -/
noncomputable def Asset.depreciate (a : Asset) (as_of_date : ℤ) : Option Asset :=
  if a.status ≠ AssetStatus.active then some a
  else (a.depValue as_of_date).map (fun v => { a with current_value := v })

/-- The asset state after calling `depreciate`, whether or not an
exception escaped (an exception leaves the asset unchanged). -/
noncomputable def Asset.depreciateRun (a : Asset) (as_of_date : ℤ) : Asset :=
  (a.depreciate as_of_date).getD a

/-- The state of the backing JSON document of a repository service:
missing, unreadable (I/O error), malformed (not valid JSON), or a
parsed keyed collection of serialized entities. -/
inductive FileContent (δ : Type)
  | missing
  | unreadable
  | malformed
  | valid (entries : List (UUID × δ))

/-- What a decorated operation hands back to its caller: either the
wrapped function's value or the flask error-response pair the decorator
substituted for a caught exception (modelled by its status code). -/
inductive HandlerResult (α : Type)
  | value (a : α)
  | response (status : ℕ)

/-- The `error_handler` decorator: the wrapped call's outcome (value or
raised exception) is turned into a normal return — an `ERPError`
becomes a 400 response, any other exception a 500 response.  The
decorated function itself never raises. -/
def error_handler {α : Type} (r : Except PyErr α) : Except PyErr (HandlerResult α) :=
  match r with
  | .ok a => .ok (.value a)
  | .error e => .ok (.response (if e.isERP then 400 else 500))

/-- The body of `FileHandler.load`: a missing file is the empty
mapping; an unreadable file raises `OSError`; malformed content raises
`json.JSONDecodeError`; otherwise the parsed mapping is returned. -/
def FileHandler.load_body {δ : Type} : FileContent δ → Except PyErr (List (UUID × δ))
  | .missing => .ok []
  | .unreadable => .error .osError
  | .malformed => .error .jsonDecode
  | .valid entries => .ok entries

/-- `FileHandler.load` as its callers see it: the body wrapped in
`@error_handler`. -/
def FileHandler.load {δ : Type} (f : FileContent δ) :
    Except PyErr (HandlerResult (List (UUID × δ))) :=
  error_handler (FileHandler.load_body f)

/-- Python dict lookup (`self.assets.get(key)`). -/
def dictGet {α : Type} : List (UUID × α) → UUID → Option α
  | [], _ => none
  | (k, v) :: rest, q => if k = q then some v else dictGet rest q

/-- Python dict assignment `d[k] = v`: replaces the entry in place if
the key exists (keeping its insertion position), otherwise appends. -/
def dictInsert {α : Type} : List (UUID × α) → UUID → α → List (UUID × α)
  | [], k, v => [(k, v)]
  | (k0, v0) :: rest, k, v =>
      if k0 = k then (k0, v) :: rest else (k0, v0) :: dictInsert rest k v

/-- Python dict deletion `del d[k]`. -/
def dictErase {α : Type} (l : List (UUID × α)) (k : UUID) : List (UUID × α) :=
  l.filter (fun kv => ¬ kv.1 = k)

/-- The state of one repository service (`AssetService`,
`MaintenanceService`, `InventoryService` are this same structure): the
in-memory keyed collection plus the backing document its `FileHandler`
points at.  The three Python classes are textually identical up to the
entity type, so the operations are defined once, parameterized by the
entity's identifier projection and serializer. -/
structure Repo (α δ : Type) where
  items : List (UUID × α)
  file : FileContent δ

/-- `_save_assets` / `_save_maintenances` / `_save_inventory`: rewrite
the whole backing document from the in-memory collection.  (Write
failures are swallowed by `error_handler` on `FileHandler.save` and are
not modelled; the write always succeeds here.) -/
def Repo.save {α δ : Type} (toDoc : α → δ) (s : Repo α δ) : Repo α δ :=
  { s with file := .valid (s.items.map (fun kv => (kv.1, toDoc kv.2))) }

/-- `add_*`: insert keyed by the entity's identifier (silently
overwriting) and re-save the collection.  The `validate_input`
isinstance check always passes for a well-typed entity. -/
def Repo.add {α δ : Type} (idOf : α → UUID) (toDoc : α → δ)
    (s : Repo α δ) (a : α) : Except PyErr Unit × Repo α δ :=
  (.ok (), Repo.save toDoc { s with items := dictInsert s.items (idOf a) a })

/-- `get_*`: return the entity or raise `AssetManagementError(... not
found)`.  (The `if not entity:` falsiness test is a plain `None` test:
dataclass instances are always truthy.) -/
def Repo.get {α δ : Type} (s : Repo α δ) (k : UUID) : Except PyErr α :=
  match dictGet s.items k with
  | some a => .ok a
  | none => .error .assetManagementNotFound

/-- `update_*`: raise `AssetManagementError(... not found)` before
touching anything if the identifier is absent, else replace and
re-save. -/
def Repo.update {α δ : Type} (idOf : α → UUID) (toDoc : α → δ)
    (s : Repo α δ) (a : α) : Except PyErr Unit × Repo α δ :=
  if (dictGet s.items (idOf a)).isSome then
    (.ok (), Repo.save toDoc { s with items := dictInsert s.items (idOf a) a })
  else
    (.error .assetManagementNotFound, s)

/-- `delete_*`: raise `AssetManagementError(... not found)` before
touching anything if the identifier is absent, else remove and
re-save. -/
def Repo.delete {α δ : Type} (toDoc : α → δ)
    (s : Repo α δ) (k : UUID) : Except PyErr Unit × Repo α δ :=
  if (dictGet s.items k).isSome then
    (.ok (), Repo.save toDoc { s with items := dictErase s.items k })
  else
    (.error .assetManagementNotFound, s)

/-- `AssetService` is the `Repo` pattern at `Asset`. -/
abbrev AssetService : Type := Repo Asset AssetSerDoc

/-- `AssetService.add_asset`. -/
def AssetService.add_asset (s : AssetService) (a : Asset) :
    Except PyErr Unit × AssetService :=
  Repo.add Asset.id Asset.to_dict s a

/-- `AssetService.get_asset`. -/
def AssetService.get_asset (s : AssetService) (k : UUID) : Except PyErr Asset :=
  Repo.get s k

/-- `AssetService.update_asset`. -/
def AssetService.update_asset (s : AssetService) (a : Asset) :
    Except PyErr Unit × AssetService :=
  Repo.update Asset.id Asset.to_dict s a

/-- `AssetService.delete_asset`. -/
def AssetService.delete_asset (s : AssetService) (k : UUID) :
    Except PyErr Unit × AssetService :=
  Repo.delete Asset.to_dict s k

/-- The `for asset in self.assets.values(): asset.depreciate(as_of_date)`
loop of `depreciate_all_assets`, mutating in place: if one asset's
depreciation raises, the already-processed prefix keeps its new values
and the rest (including the failing asset) is untouched. -/
noncomputable def depLoop : List (UUID × Asset) → ℤ →
    Except PyErr Unit × List (UUID × Asset)
  | [], _ => (.ok (), [])
  | (k, a) :: rest, d =>
      match a.depreciate d with
      | some a2 =>
          let r := depLoop rest d
          (r.1, (k, a2) :: r.2)
      | none => (.error .invalidOperation, (k, a) :: rest)

/-- `AssetService.depreciate_all_assets`: depreciate every asset in
place, then persist the whole batch once — but only if no asset's
depreciation raised (an escaping exception skips `_save_assets`). -/
noncomputable def AssetService.depreciate_all_assets (s : AssetService) (d : ℤ) :
    Except PyErr Unit × AssetService :=
  match depLoop s.items d with
  | (.ok _, items2) => (.ok (), Repo.save Asset.to_dict { s with items := items2 })
  | (.error e, items2) => (.error e, { s with items := items2 })

/-- The example maintenance record of `main()`. -/
def maintEx : Maintenance :=
  { asset_id := ⟨1⟩, date := 166, description := "Annual checkup and software update",
    cost := 150, performed_by := "IT Department", maintenance_type := .preventive,
    id := ⟨2⟩, status := .scheduled, notes := none }

/-- The example asset of `main()` (laptop, 1500.00 / 300.00 / 3 years,
purchased day 0 = 2023-01-01), straight-line method. -/
noncomputable def assetSL3 : Asset :=
  { name := "Company Laptop", purchase_date := 0, purchase_price := 1500,
    current_value := (1500 : ℝ), location := "Main Office",
    category := "IT Equipment", useful_life_years := 3, id := ⟨1⟩,
    status := .active, depreciation_method := .straight_line,
    salvage_value := 300, serial_number := none, description := none,
    maintenance_records := [] }

/-- The same asset with the sum-of-years-digits method selected. -/
noncomputable def assetSYD : Asset :=
  { assetSL3 with depreciation_method := .sum_of_years_digits }

/-- The same asset with the declining-balance method selected. -/
noncomputable def assetDB : Asset :=
  { assetSL3 with depreciation_method := .declining_balance }

/-- A straight-line asset with a 4-year useful life (4 years is exactly
1461 days, so an as-of date with `yearsPassed` exactly equal to the
useful life exists). -/
noncomputable def assetSL4 : Asset :=
  { assetSL3 with useful_life_years := 4 }

/-- An inactive (frozen) asset. -/
noncomputable def assetInactive : Asset :=
  { assetSL3 with status := .inactive }

/-- The example asset carrying one maintenance record object in
`maintenance_records`. -/
noncomputable def assetWithRec : Asset :=
  { assetSL3 with maintenance_records := [MRec.obj maintEx] }

/-- An asset service holding exactly the example asset, with no backing
file yet. -/
noncomputable def svcSL3 : AssetService := { items := [(⟨1⟩, assetSL3)], file := .missing }

/-- The example asset after straight-line revaluation as of day 365
(2023-12-31): `1500 - 400 * (365 / 365.25) = 1607500 / 1461 ≈ 1100.27`. -/
noncomputable def assetSL3at365 : Asset :=
  { assetSL3 with current_value := ((1607500 / 1461 : ℚ) : ℝ) }

/-- The example asset after straight-line revaluation as of day `-365`
(one year before purchase): `1500 + 400 * (1460 / 1461) = 2775500 / 1461
≈ 1899.73`, which exceeds the purchase price. -/
noncomputable def assetSL3before : Asset :=
  { assetSL3 with current_value := ((2775500 / 1461 : ℚ) : ℝ) }

/-- The example inventory item of `main()`. -/
def itemEx : InventoryItem :=
  { name := "Spare Laptop Charger", quantity := 50, cost_per_item := 25,
    status := .in_stock, id := ⟨3⟩ }

/-- An empty inventory repository with no backing file. -/
def invRepoEmpty : Repo InventoryItem InventorySerDoc := { items := [], file := .missing }

/-- The asset service after revaluing `svcSL3` as of day 365. -/
noncomputable def svcSL3at365 : AssetService :=
  { items := [(⟨1⟩, assetSL3at365)],
    file := .valid [(⟨1⟩, assetSL3at365.to_dict)] }

/-- The asset service after revaluing `svcSL3` as of day `-365`. -/
noncomputable def svcSL3before : AssetService :=
  { items := [(⟨1⟩, assetSL3before)],
    file := .valid [(⟨1⟩, assetSL3before.to_dict)] }

/-- The declining-balance example asset revalued at its purchase date:
`(1 - 2/3) ^ 0 = 1`, so the value stays 1500.00. -/
noncomputable def assetDBat0 : Asset :=
  { assetDB with current_value := (1500 : ℝ) }

/-- The declining-balance example asset revalued at day 1461 (elapsed
4.0 years > 3-year life): clamped to the 300.00 salvage value. -/
noncomputable def assetDBat1461 : Asset :=
  { assetDB with current_value := (300 : ℝ) }

theorem assetStatus_fromValue_value (s : AssetStatus) :
    AssetStatus.fromValue s.value = some s := by
  cases s <;> rfl

theorem depreciationMethod_fromValue_value (m : DepreciationMethod) :
    DepreciationMethod.fromValue m.value = some m := by
  cases m <;> rfl

theorem maintenanceType_fromValue_value (t : MaintenanceType) :
    MaintenanceType.fromValue t.value = some t := by
  cases t <;> rfl

theorem maintenanceStatus_fromValue_value (s : MaintenanceStatus) :
    MaintenanceStatus.fromValue s.value = some s := by
  cases s <;> rfl

theorem inventoryStatus_fromValue_value (s : InventoryStatus) :
    InventoryStatus.fromValue s.value = some s := by
  cases s <;> rfl

theorem dictGet_dictInsert_self {α : Type} (l : List (UUID × α)) (k : UUID) (v : α) :
    dictGet (dictInsert l k v) k = some v := by
  induction l with
  | nil => simp [dictInsert, dictGet]
  | cons kv rest ih =>
      obtain ⟨k0, v0⟩ := kv
      rw [dictInsert]
      by_cases hk : k0 = k
      · rw [if_pos hk, dictGet, if_pos hk]
      · rw [if_neg hk, dictGet, if_neg hk]
        exact ih

theorem Asset.depValue_set_cv (a : Asset) (v : ℝ) (d : ℤ) :
    Asset.depValue { a with current_value := v } d = a.depValue d := rfl

theorem Asset.depreciate_shape {a a2 : Asset} {d : ℤ}
    (h : a.depreciate d = some a2) :
    ∃ v : ℝ, a2 = { a with current_value := v } := by
  unfold Asset.depreciate at h
  split at h
  · exact ⟨a.current_value, (Option.some.inj h).symm⟩
  · rw [Option.map_eq_some'] at h
    obtain ⟨v, _, hv⟩ := h
    exact ⟨v, hv.symm⟩

/-- Claim C5: `depreciate` is idempotent for a fixed as-of date — for
every asset and every as-of date, calling `depreciate` twice with the
same date leaves the asset in the same state as calling it once
(`current_value` is only written, never read, by the computation). -/
theorem c5_depreciate_idempotent (a : Asset) (d : ℤ) :
    (a.depreciateRun d).depreciateRun d = a.depreciateRun d := by
  unfold Asset.depreciateRun
  by_cases hact : a.status = AssetStatus.active
  · have hdef : a.depreciate d =
        (a.depValue d).map (fun v => { a with current_value := v }) := by
      rw [Asset.depreciate, if_neg (by simp [hact])]
    cases hv : a.depValue d with
    | none =>
        have h : a.depreciate d = none := by rw [hdef, hv]; rfl
        simp [h]
    | some v =>
        have h : a.depreciate d = some { a with current_value := v } := by
          rw [hdef, hv]; rfl
        have h2 : ({ a with current_value := v } : Asset).depreciate d =
            some { a with current_value := v } := by
          rw [Asset.depreciate, if_neg (by simp [hact])]
          rw [Asset.depValue_set_cv, hv]
          rfl
        simp [h, h2]
  · have h : a.depreciate d = some a := by
      rw [Asset.depreciate, if_pos hact]
    simp [h]

/-- Claim C6: depreciation applies only to Active assets — a non-Active
asset passes through `depreciate` completely unchanged, and for any
asset the state after `depreciate` agrees with the original on every
field other than `current_value`. -/
theorem c6_depreciate_frame (a : Asset) (d : ℤ) :
    (a.status ≠ AssetStatus.active → a.depreciate d = some a) ∧
    ((a.depreciateRun d).name = a.name ∧
     (a.depreciateRun d).purchase_date = a.purchase_date ∧
     (a.depreciateRun d).purchase_price = a.purchase_price ∧
     (a.depreciateRun d).location = a.location ∧
     (a.depreciateRun d).category = a.category ∧
     (a.depreciateRun d).useful_life_years = a.useful_life_years ∧
     (a.depreciateRun d).id = a.id ∧
     (a.depreciateRun d).status = a.status ∧
     (a.depreciateRun d).depreciation_method = a.depreciation_method ∧
     (a.depreciateRun d).salvage_value = a.salvage_value ∧
     (a.depreciateRun d).serial_number = a.serial_number ∧
     (a.depreciateRun d).description = a.description ∧
     (a.depreciateRun d).maintenance_records = a.maintenance_records) := by
  constructor
  · intro h
    rw [Asset.depreciate, if_pos h]
  · obtain ⟨v, hv⟩ : ∃ v, a.depreciateRun d = { a with current_value := v } := by
      unfold Asset.depreciateRun
      cases h : a.depreciate d with
      | none => exact ⟨a.current_value, rfl⟩
      | some a2 =>
          obtain ⟨v, hv⟩ := Asset.depreciate_shape h
          exact ⟨v, by simp [hv]⟩
    rw [hv]
    exact ⟨rfl, rfl, rfl, rfl, rfl, rfl, rfl, rfl, rfl, rfl, rfl, rfl, rfl⟩

/-- Witness for C6 at a concrete frozen asset. -/
theorem c6_depreciate_frame_witness :
    assetInactive.status ≠ AssetStatus.active ∧
    assetInactive.depreciate 0 = some assetInactive ∧
    (assetInactive.depreciateRun 0).name = assetInactive.name := by
  have h := c6_depreciate_frame assetInactive 0
  have hst : assetInactive.status ≠ AssetStatus.active := by
    simp [assetInactive, assetSL3]
  exact ⟨hst, h.1 hst, h.2.1⟩

/-- Claim C7 (amended): `from_dict ∘ to_dict` is the identity on
`Maintenance` and `InventoryItem`; on `Asset` it restores every field
except `maintenance_records`, whose entries come back as the plain
dicts `dataclasses.asdict` produced instead of `Maintenance` objects
(so it is the identity only on assets with no maintenance records). -/
theorem c7_serialization_roundtrip_amended :
    (∀ m : Maintenance, Maintenance.from_dict m.to_dict = some m) ∧
    (∀ i : InventoryItem, InventoryItem.from_dict i.to_dict = some i) ∧
    (∀ a : Asset, Asset.from_dict a.to_dict =
      some { a with maintenance_records :=
        a.maintenance_records.map (fun r => MRec.doc r.asdict) }) := by
  refine ⟨fun m => ?_, fun i => ?_, fun a => ?_⟩
  · simp [Maintenance.to_dict, Maintenance.from_dict,
      maintenanceType_fromValue_value, maintenanceStatus_fromValue_value]
  · simp [InventoryItem.to_dict, InventoryItem.from_dict,
      inventoryStatus_fromValue_value]
  · simp [Asset.to_dict, Asset.from_dict, assetStatus_fromValue_value,
      depreciationMethod_fromValue_value, List.map_map, Function.comp]

/-- Counterexample to claim C7 as stated: on an asset holding one
`Maintenance` object, deserializing its serialized form does not give
back an equal asset (the record returns as a plain dict). -/
theorem c7_roundtrip_counterexample :
    Asset.from_dict assetWithRec.to_dict ≠ some assetWithRec := by
  intro h
  have hval : Asset.from_dict assetWithRec.to_dict =
      some { assetWithRec with
        maintenance_records := [MRec.doc maintEx.asdict] } := by
    simp [assetWithRec, assetSL3, Asset.to_dict, Asset.from_dict,
      assetStatus_fromValue_value, depreciationMethod_fromValue_value,
      MRec.asdict]
  rw [hval] at h
  have h3 := congrArg Asset.maintenance_records (Option.some.inj h)
  simp [assetWithRec, assetSL3] at h3

/-- Claim C8: on any repository (the three services share this one
parameterized implementation), `update` and `delete` on an identifier
absent from the in-memory collection raise the not-found error before
touching anything, leaving the whole service state — in-memory
collection and backing document — unchanged. -/
theorem c8_update_delete_notfound {α δ : Type} (idOf : α → UUID) (toDoc : α → δ)
    (s : Repo α δ) (a : α) (k : UUID)
    (hu : dictGet s.items (idOf a) = none) (hk : dictGet s.items k = none) :
    Repo.update idOf toDoc s a = (Except.error PyErr.assetManagementNotFound, s) ∧
    Repo.delete toDoc s k = (Except.error PyErr.assetManagementNotFound, s) := by
  constructor
  · rw [Repo.update, if_neg (by simp [hu])]
  · rw [Repo.delete, if_neg (by simp [hk])]

/-- Witness for C8 on a concrete empty inventory repository. -/
theorem c8_update_delete_notfound_witness :
    dictGet invRepoEmpty.items itemEx.id = none ∧
    dictGet invRepoEmpty.items (⟨7⟩ : UUID) = none ∧
    Repo.update InventoryItem.id InventoryItem.to_dict invRepoEmpty itemEx =
      (Except.error PyErr.assetManagementNotFound, invRepoEmpty) ∧
    Repo.delete InventoryItem.to_dict invRepoEmpty (⟨7⟩ : UUID) =
      (Except.error PyErr.assetManagementNotFound, invRepoEmpty) := by
  have h := c8_update_delete_notfound InventoryItem.id InventoryItem.to_dict
    invRepoEmpty itemEx ⟨7⟩ rfl rfl
  exact ⟨rfl, rfl, h.1, h.2⟩

/-- Counterexample to claim C9 as stated: on a backing document that
exists but is malformed, `load` does not propagate any error to its
caller — the `error_handler` decorator catches the JSON decode error
and returns a 500 error-response value instead. -/
theorem c9_load_counterexample :
    FileHandler.load (FileContent.malformed : FileContent AssetSerDoc) =
      Except.ok (HandlerResult.response 500) := rfl

/-- Claim C9 (amended): `load` on a missing document returns the empty
mapping; on an unreadable or malformed document the underlying OSError
or JSON decode error is caught by the `error_handler` decorator, which
returns a 500 error-response value in place of the mapping — `load`
never raises to its caller. -/
theorem c9_load_amended :
    (∀ δ : Type, FileHandler.load (FileContent.missing : FileContent δ) =
      Except.ok (HandlerResult.value [])) ∧
    (∀ δ : Type, FileHandler.load (FileContent.unreadable : FileContent δ) =
      Except.ok (HandlerResult.response 500)) ∧
    (∀ δ : Type, FileHandler.load (FileContent.malformed : FileContent δ) =
      Except.ok (HandlerResult.response 500)) ∧
    (∀ (δ : Type) (f : FileContent δ), ∃ r, FileHandler.load f = Except.ok r) := by
  refine ⟨fun _ => rfl, fun _ => rfl, fun _ => rfl, fun δ f => ?_⟩
  cases f <;> exact ⟨_, rfl⟩

/-- Claim C10: get-after-add — `add_asset` always succeeds (silently
overwriting an existing entry with the same identifier), and a
subsequent `get_asset` with the new asset's identifier returns exactly
that asset. -/
theorem c10_get_after_add (s : AssetService) (a : Asset) :
    (AssetService.add_asset s a).1 = Except.ok () ∧
    AssetService.get_asset (AssetService.add_asset s a).2 a.id = Except.ok a := by
  refine ⟨rfl, ?_⟩
  unfold AssetService.get_asset AssetService.add_asset Repo.get Repo.add Repo.save
  simp [dictGet_dictInsert_self]

theorem sum_range_succ_cast_q (n : ℕ) :
    (∑ i ∈ Finset.range (n + 1), (i : ℚ)) = (n : ℚ) * ((n : ℚ) + 1) / 2 := by
  induction n with
  | zero => simp
  | succ m ih =>
      rw [Finset.sum_range_succ, ih]
      push_cast
      ring

theorem sum_of_years_eq (ul : ℤ) (h : 0 ≤ ul) :
    ((sum_of_years ul : ℤ) : ℚ) = (ul : ℚ) * ((ul : ℚ) + 1) / 2 := by
  have ht : ((ul.toNat : ℚ)) = (ul : ℚ) := by
    exact_mod_cast congrArg (fun z : ℤ => (z : ℚ)) (Int.toNat_of_nonneg h)
  unfold sum_of_years
  push_cast
  rw [sum_range_succ_cast_q, ht]

theorem sum_of_years_pos (ul : ℤ) (h : 1 ≤ ul) : 0 < sum_of_years ul := by
  have hq : (0 : ℚ) < ((sum_of_years ul : ℤ) : ℚ) := by
    rw [sum_of_years_eq ul (by omega)]
    have h1 : (1 : ℚ) ≤ (ul : ℚ) := by exact_mod_cast h
    nlinarith
  exact_mod_cast hq

/-- Claim C2: for an Active asset with the sum-of-years-digits method
and elapsed years not exceeding the useful life, `depreciate` charges,
for each completed whole year index `y` below `floor(elapsedYears)`,
the fraction `(usefulLifeYears - y) / (usefulLifeYears *
(usefulLifeYears + 1) / 2)` of the depreciable base, ignoring the
fractional remainder, and clamps at the salvage value. -/
theorem c2_sum_of_years_digits_value (a : Asset) (d : ℤ)
    (hst : a.status = AssetStatus.active)
    (hm : a.depreciation_method = DepreciationMethod.sum_of_years_digits)
    (hul : 1 ≤ a.useful_life_years)
    (hy : yearsPassed a.purchase_date d ≤ (a.useful_life_years : ℚ)) :
    a.depreciate d = some { a with current_value :=
      ((max (a.purchase_price -
          ∑ year ∈ Finset.range ((⌊yearsPassed a.purchase_date d⌋).toNat),
            ((a.useful_life_years : ℚ) - (year : ℚ)) /
              ((a.useful_life_years : ℚ) * ((a.useful_life_years : ℚ) + 1) / 2) *
              (a.purchase_price - a.salvage_value))
        a.salvage_value : ℚ) : ℝ) } := by
  have hS : ¬ (sum_of_years a.useful_life_years = 0 ∧
      (⌊yearsPassed a.purchase_date d⌋).toNat ≠ 0) := by
    intro hc
    exact absurd hc.1 (ne_of_gt (sum_of_years_pos _ hul))
  have hsum : (∑ year ∈ Finset.range ((⌊yearsPassed a.purchase_date d⌋).toNat),
        ((a.useful_life_years - (year : ℤ) : ℤ) : ℚ) /
          ((sum_of_years a.useful_life_years : ℤ) : ℚ) *
          (a.purchase_price - a.salvage_value)) =
      ∑ year ∈ Finset.range ((⌊yearsPassed a.purchase_date d⌋).toNat),
        ((a.useful_life_years : ℚ) - (year : ℚ)) /
          ((a.useful_life_years : ℚ) * ((a.useful_life_years : ℚ) + 1) / 2) *
          (a.purchase_price - a.salvage_value) := by
    refine Finset.sum_congr rfl (fun y _ => ?_)
    rw [sum_of_years_eq _ (by omega)]
    push_cast
    ring
  have hdv : a.depValue d = some
      ((max (a.purchase_price -
          ∑ year ∈ Finset.range ((⌊yearsPassed a.purchase_date d⌋).toNat),
            ((a.useful_life_years : ℚ) - (year : ℚ)) /
              ((a.useful_life_years : ℚ) * ((a.useful_life_years : ℚ) + 1) / 2) *
              (a.purchase_price - a.salvage_value))
        a.salvage_value : ℚ) : ℝ) := by
    simp only [Asset.depValue, hm]
    rw [if_neg (not_lt.mpr hy), if_neg hS, hsum]
  rw [Asset.depreciate, if_neg (by simp [hst]), hdv]
  rfl

/-- Witness for C2: the 1500.00 / 300.00 / 3-year example asset revalued
548 days after purchase (elapsed ≈ 1.5003 years, floor 1) is worth
exactly 900.00. -/
theorem c2_sum_of_years_digits_value_witness :
    assetSYD.status = AssetStatus.active ∧
    assetSYD.depreciation_method = DepreciationMethod.sum_of_years_digits ∧
    1 ≤ assetSYD.useful_life_years ∧
    yearsPassed assetSYD.purchase_date 548 ≤ (assetSYD.useful_life_years : ℚ) ∧
    assetSYD.depreciate 548 = some { assetSYD with current_value := ((900 : ℚ) : ℝ) } := by
  have hy : yearsPassed assetSYD.purchase_date 548 ≤ (assetSYD.useful_life_years : ℚ) := by
    norm_num [yearsPassed, assetSYD, assetSL3]
  have h5 := c2_sum_of_years_digits_value assetSYD 548 rfl rfl (by decide) hy
  have hfloor : (⌊yearsPassed assetSYD.purchase_date 548⌋).toNat = 1 := by
    have : yearsPassed assetSYD.purchase_date 548 = (2192 / 1461 : ℚ) := by
      norm_num [yearsPassed, assetSYD, assetSL3]
    rw [this]
    norm_num [Int.floor_eq_iff]
  rw [hfloor] at h5
  have hcv : (max (assetSYD.purchase_price -
      ∑ year ∈ Finset.range 1,
        ((assetSYD.useful_life_years : ℚ) - (year : ℚ)) /
          ((assetSYD.useful_life_years : ℚ) * ((assetSYD.useful_life_years : ℚ) + 1) / 2) *
          (assetSYD.purchase_price - assetSYD.salvage_value))
      assetSYD.salvage_value : ℚ) = 900 := by
    norm_num [assetSYD, assetSL3]
  rw [hcv] at h5
  exact ⟨rfl, rfl, by decide, hy, h5⟩

/-- Claim C3: for an Active straight-line asset whose elapsed years
(calendar-day difference over 365.25) equal the useful life exactly,
`depreciate` lands exactly on the salvage value. -/
theorem c3_straight_line_full_life (a : Asset) (d : ℤ)
    (hst : a.status = AssetStatus.active)
    (hm : a.depreciation_method = DepreciationMethod.straight_line)
    (hul : 1 ≤ a.useful_life_years)
    (hy : yearsPassed a.purchase_date d = (a.useful_life_years : ℚ)) :
    a.depreciate d = some { a with current_value := ((a.salvage_value : ℝ)) } := by
  have hul0 : (a.useful_life_years : ℚ) ≠ 0 := by
    exact_mod_cast (by omega : a.useful_life_years ≠ 0)
  have hdv : a.depValue d = some ((a.salvage_value : ℝ)) := by
    simp only [Asset.depValue, hm]
    rw [if_neg (by rw [hy]; exact lt_irrefl _)]
    rw [if_neg (by omega : ¬ a.useful_life_years = 0)]
    rw [hy, div_mul_cancel₀ _ hul0, sub_sub_cancel, max_self]
  rw [Asset.depreciate, if_neg (by simp [hst]), hdv]
  rfl

/-- Witness for C3: with a 4-year useful life, day 1461 after purchase
is exactly 4.0 elapsed years (1461 = 4 × 365.25) and the straight-line
value is exactly the 300.00 salvage value. -/
theorem c3_straight_line_full_life_witness :
    assetSL4.status = AssetStatus.active ∧
    assetSL4.depreciation_method = DepreciationMethod.straight_line ∧
    1 ≤ assetSL4.useful_life_years ∧
    yearsPassed assetSL4.purchase_date 1461 = (assetSL4.useful_life_years : ℚ) ∧
    assetSL4.depreciate 1461 = some { assetSL4 with current_value := ((assetSL4.salvage_value : ℝ)) } := by
  have hy : yearsPassed assetSL4.purchase_date 1461 = (assetSL4.useful_life_years : ℚ) := by
    norm_num [yearsPassed, assetSL4, assetSL3]
  exact ⟨rfl, rfl, by decide, hy,
    c3_straight_line_full_life assetSL4 1461 rfl rfl (by decide) hy⟩

theorem yearsPassed_nonneg {pd d : ℤ} (h : pd ≤ d) : 0 ≤ yearsPassed pd d := by
  unfold yearsPassed
  apply div_nonneg
  · exact_mod_cast sub_nonneg.mpr h
  · norm_num

theorem yearsPassed_mono (pd : ℤ) {d1 d2 : ℤ} (h : d1 ≤ d2) :
    yearsPassed pd d1 ≤ yearsPassed pd d2 := by
  unfold yearsPassed
  exact (div_le_div_iff_of_pos_right (by norm_num)).mpr
    (by exact_mod_cast sub_le_sub_right h pd)

/-- An integral number of elapsed years is automatically even: if
`(d - pd) / 365.25` is an integer `n` then `1461 n = 4 (d - pd)`, and
since `gcd 4 1461 = 1`, `4 ∣ n`. -/
theorem yearsPassed_num_even (pd d : ℤ) (h : (yearsPassed pd d).den = 1) :
    2 ∣ (yearsPassed pd d).num := by
  set q := yearsPassed pd d with hq
  have hqv : (q.num : ℚ) = q := by
    conv_rhs => rw [← Rat.num_div_den q]
    rw [h]
    simp
  have hcross : (q.num : ℚ) * (1461 / 4) = ((d - pd : ℤ) : ℚ) := by
    rw [hqv, hq]
    unfold yearsPassed
    rw [show (365.25 : ℚ) = 1461 / 4 by norm_num]
    rw [div_mul_cancel₀ _ (by norm_num : (1461 / 4 : ℚ) ≠ 0)]
  have h4 : (q.num : ℚ) * 1461 = 4 * ((d - pd : ℤ) : ℚ) := by linarith
  have hz : q.num * 1461 = 4 * (d - pd) := by exact_mod_cast h4
  have hdvd : (4 : ℤ) ∣ q.num * 1461 := ⟨d - pd, by linarith⟩
  have hcop : IsCoprime (4 : ℤ) (1461 : ℤ) := by
    rw [Int.isCoprime_iff_gcd_eq_one]
    decide
  exact dvd_trans ⟨2, by norm_num⟩ (hcop.dvd_of_dvd_mul_right hdvd)

theorem neg_one_zpow_of_even {n : ℤ} (h : 2 ∣ n) : ((-1 : ℝ)) ^ n = 1 := by
  obtain ⟨k, rfl⟩ := h
  rw [zpow_mul]
  norm_num

/-- Bounds on the value the depreciation engine computes for a sane
Active asset at an as-of date on or after purchase: the result is
always in `[salvage_value, purchase_price]`. -/
theorem Asset.depValue_bounds {a : Asset} {d : ℤ} {v : ℝ}
    (hsv : 0 ≤ a.salvage_value) (hsp : a.salvage_value ≤ a.purchase_price)
    (hul : 1 ≤ a.useful_life_years) (hd : a.purchase_date ≤ d)
    (hv : a.depValue d = some v) :
    (a.salvage_value : ℝ) ≤ v ∧ v ≤ (a.purchase_price : ℝ) := by
  have hy0 : 0 ≤ yearsPassed a.purchase_date d := yearsPassed_nonneg hd
  have hsp' : (a.salvage_value : ℝ) ≤ (a.purchase_price : ℝ) := by exact_mod_cast hsp
  have hpp0 : (0 : ℝ) ≤ (a.purchase_price : ℝ) := by
    exact_mod_cast le_trans hsv hsp
  have hulq : (0 : ℚ) < (a.useful_life_years : ℚ) := by
    exact_mod_cast (by omega : (0 : ℤ) < a.useful_life_years)
  rcases hmth : a.depreciation_method with _ | _ | _
  · -- straight line
    simp only [Asset.depValue, hmth] at hv
    by_cases hcl : (a.useful_life_years : ℚ) < yearsPassed a.purchase_date d
    · rw [if_pos hcl] at hv
      cases Option.some.inj hv
      exact ⟨le_rfl, hsp'⟩
    · rw [if_neg hcl, if_neg (by omega : ¬ a.useful_life_years = 0)] at hv
      cases Option.some.inj hv
      constructor
      · exact_mod_cast le_max_right _ _
      · have hann : 0 ≤ (a.purchase_price - a.salvage_value) / (a.useful_life_years : ℚ) :=
          div_nonneg (sub_nonneg.mpr hsp) (le_of_lt hulq)
        have hb : max (a.purchase_price -
            (a.purchase_price - a.salvage_value) / (a.useful_life_years : ℚ) *
              yearsPassed a.purchase_date d) a.salvage_value ≤ a.purchase_price :=
          max_le (sub_le_self _ (mul_nonneg hann hy0)) hsp
        exact_mod_cast hb
  · -- declining balance
    simp only [Asset.depValue, hmth] at hv
    by_cases hcl : (a.useful_life_years : ℚ) < yearsPassed a.purchase_date d
    · rw [if_pos hcl] at hv
      cases Option.some.inj hv
      exact ⟨le_rfl, hsp'⟩
    · rw [if_neg hcl, if_neg (by omega : ¬ a.useful_life_years = 0),
        Option.map_eq_some'] at hv
      obtain ⟨p, hp, rfl⟩ := hv
      refine ⟨le_max_right _ _, max_le ?_ hsp'⟩
      rcases (by omega : a.useful_life_years = 1 ∨ a.useful_life_years = 2 ∨
          3 ≤ a.useful_life_years) with hu1 | hu2 | hu3
      · -- useful life 1: base -1, defined only at an (even) integral exponent
        rw [hu1] at hp
        norm_num [decPow] at hp
        obtain ⟨hden, hp1⟩ := hp
        rw [← hp1, neg_one_zpow_of_even (yearsPassed_num_even _ _ hden), mul_one]
      · -- useful life 2: base 0
        rw [hu2] at hp
        norm_num [decPow] at hp
        obtain ⟨-, hp2⟩ := hp
        rw [← hp2, mul_zero]
        exact hpp0
      · -- useful life at least 3: base in (0, 1), real exponentiation
        have h3q : (3 : ℚ) ≤ (a.useful_life_years : ℚ) := by exact_mod_cast hu3
        have hb0 : (0 : ℚ) < 1 - 2 / (a.useful_life_years : ℚ) := by
          rw [sub_pos, div_lt_one (by linarith)]
          linarith
        have hb1 : (1 : ℚ) - 2 / (a.useful_life_years : ℚ) ≤ 1 := by
          have h2n : 0 ≤ 2 / (a.useful_life_years : ℚ) :=
            div_nonneg (by norm_num) (le_of_lt hulq)
          linarith
        simp only [decPow] at hp
        rw [if_pos hb0] at hp
        cases Option.some.inj hp
        have hple : Real.rpow ((1 - 2 / (a.useful_life_years : ℚ) : ℚ) : ℝ)
            ((yearsPassed a.purchase_date d : ℚ) : ℝ) ≤ 1 :=
          Real.rpow_le_one (by exact_mod_cast le_of_lt hb0)
            (by exact_mod_cast hb1) (by exact_mod_cast hy0)
        have := mul_le_mul_of_nonneg_left hple hpp0
        rwa [mul_one] at this
  · -- sum of years digits
    simp only [Asset.depValue, hmth] at hv
    by_cases hcl : (a.useful_life_years : ℚ) < yearsPassed a.purchase_date d
    · rw [if_pos hcl] at hv
      cases Option.some.inj hv
      exact ⟨le_rfl, hsp'⟩
    · have hS := sum_of_years_pos _ hul
      rw [if_neg hcl, if_neg (fun hc => absurd hc.1 (ne_of_gt hS))] at hv
      cases Option.some.inj hv
      constructor
      · exact_mod_cast le_max_right _ _
      · have htot : 0 ≤ ∑ year ∈ Finset.range ((⌊yearsPassed a.purchase_date d⌋).toNat),
            ((a.useful_life_years - (year : ℤ) : ℤ) : ℚ) /
              ((sum_of_years a.useful_life_years : ℤ) : ℚ) *
              (a.purchase_price - a.salvage_value) := by
          refine Finset.sum_nonneg (fun y hyr => ?_)
          have hfl : ⌊yearsPassed a.purchase_date d⌋ ≤ a.useful_life_years := by
            have hle := Int.floor_mono (not_lt.mp hcl)
            rwa [Int.floor_intCast] at hle
          have htn : ((⌊yearsPassed a.purchase_date d⌋).toNat : ℤ) ≤ a.useful_life_years := by
            rcases le_or_lt 0 (⌊yearsPassed a.purchase_date d⌋) with hpos | hneg
            · rwa [Int.toNat_of_nonneg hpos]
            · rw [Int.toNat_of_nonpos (le_of_lt hneg)]
              omega
          have hyz : (y : ℤ) < ((⌊yearsPassed a.purchase_date d⌋).toNat : ℤ) := by
            exact_mod_cast Finset.mem_range.mp hyr
          have hnum : (0 : ℚ) ≤ ((a.useful_life_years - (y : ℤ) : ℤ) : ℚ) := by
            exact_mod_cast (by omega : (0 : ℤ) ≤ a.useful_life_years - (y : ℤ))
          have hden : (0 : ℚ) ≤ ((sum_of_years a.useful_life_years : ℤ) : ℚ) := by
            exact_mod_cast le_of_lt hS
          exact mul_nonneg (div_nonneg hnum hden) (sub_nonneg.mpr hsp)
        have hb : max (a.purchase_price -
            ∑ year ∈ Finset.range ((⌊yearsPassed a.purchase_date d⌋).toNat),
              ((a.useful_life_years - (year : ℤ) : ℤ) : ℚ) /
                ((sum_of_years a.useful_life_years : ℤ) : ℚ) *
                (a.purchase_price - a.salvage_value)) a.salvage_value ≤
            a.purchase_price := max_le (sub_le_self _ htot) hsp
        exact_mod_cast hb

/-- The depreciation step keeps a sane Active asset inside its value
bounds (hypotheses are stated on the post-state, whose parameter fields
coincide with the pre-state's). -/
theorem Asset.depreciate_bounds {a a2 : Asset} {d : ℤ}
    (h : a.depreciate d = some a2) (hst : a2.status = AssetStatus.active)
    (hsv : 0 ≤ a2.salvage_value) (hsp : a2.salvage_value ≤ a2.purchase_price)
    (hul : 1 ≤ a2.useful_life_years) (hd : a2.purchase_date ≤ d) :
    (a2.salvage_value : ℝ) ≤ a2.current_value ∧
      a2.current_value ≤ (a2.purchase_price : ℝ) := by
  by_cases hact : a.status = AssetStatus.active
  · rw [Asset.depreciate, if_neg (by simp [hact]), Option.map_eq_some'] at h
    obtain ⟨v, hv, rfl⟩ := h
    exact Asset.depValue_bounds hsv hsp hul hd hv
  · rw [Asset.depreciate, if_pos hact] at h
    cases Option.some.inj h
    exact absurd hst hact

theorem depLoop_ok_mem {items items2 : List (UUID × Asset)} {d : ℤ} {k : UUID} {a2 : Asset}
    (h : depLoop items d = (Except.ok (), items2)) (hm : (k, a2) ∈ items2) :
    ∃ a, (k, a) ∈ items ∧ a.depreciate d = some a2 := by
  induction items generalizing items2 with
  | nil =>
      have h2 := congrArg Prod.snd h
      simp only [depLoop] at h2
      subst h2
      simp at hm
  | cons kv rest ih =>
      obtain ⟨k0, a0⟩ := kv
      cases hdep : a0.depreciate d with
      | none => simp [depLoop, hdep] at h
      | some a0' =>
          simp only [depLoop, hdep, Prod.mk.injEq] at h
          obtain ⟨h1, h2⟩ := h
          subst h2
          rcases List.mem_cons.mp hm with hhead | htail
          · obtain ⟨hk, ha⟩ := Prod.mk.injEq .. |>.mp hhead
            subst hk
            subst ha
            exact ⟨a0, List.mem_cons_self _ _, hdep⟩
          · have hrest : depLoop rest d = (Except.ok (), (depLoop rest d).2) := by
              rw [← h1]
            obtain ⟨a, hmem, hda⟩ := ih hrest htail
            exact ⟨a, List.mem_cons_of_mem _ hmem, hda⟩

/-- Claim C1 (amended): after a successful `depreciate_all_assets`,
every Active asset in the collection with `0 ≤ salvage_value ≤
purchase_price`, a positive useful life, and purchase date on or before
the as-of date has `current_value` in `[salvage_value,
purchase_price]`.  (For as-of dates before the purchase date the bound
fails — see the counterexample.) -/
theorem c1_value_bounds_after_revalue (s : AssetService) (d : ℤ) (s2 : AssetService)
    (h : AssetService.depreciate_all_assets s d = (Except.ok (), s2))
    (k : UUID) (a : Asset) (hm : (k, a) ∈ s2.items)
    (hst : a.status = AssetStatus.active) (hsv : 0 ≤ a.salvage_value)
    (hsp : a.salvage_value ≤ a.purchase_price) (hul : 1 ≤ a.useful_life_years)
    (hd : a.purchase_date ≤ d) :
    (a.salvage_value : ℝ) ≤ a.current_value ∧
      a.current_value ≤ (a.purchase_price : ℝ) := by
  cases hl : depLoop s.items d with
  | mk r items2 =>
      cases r with
      | ok u =>
          cases u
          simp only [AssetService.depreciate_all_assets, hl, Prod.mk.injEq] at h
          obtain ⟨-, h2⟩ := h
          have hitems : s2.items = items2 := by
            rw [← h2]
            rfl
          rw [hitems] at hm
          obtain ⟨a0, _, hdep⟩ := depLoop_ok_mem hl hm
          exact Asset.depreciate_bounds hdep hst hsv hsp hul hd
      | error e =>
          simp only [AssetService.depreciate_all_assets, hl, Prod.mk.injEq] at h
          exact absurd h.1 (by simp)

/-- Witness for C1 on the example service revalued as of day 365:
the asset ends at `1607500 / 1461 ≈ 1100.27 ∈ [300, 1500]`. -/
theorem c1_value_bounds_after_revalue_witness :
    AssetService.depreciate_all_assets svcSL3 365 = (Except.ok (), svcSL3at365) ∧
    ((⟨1⟩ : UUID), assetSL3at365) ∈ svcSL3at365.items ∧
    assetSL3at365.status = AssetStatus.active ∧
    0 ≤ assetSL3at365.salvage_value ∧
    assetSL3at365.salvage_value ≤ assetSL3at365.purchase_price ∧
    1 ≤ assetSL3at365.useful_life_years ∧
    assetSL3at365.purchase_date ≤ 365 ∧
    ((assetSL3at365.salvage_value : ℝ) ≤ assetSL3at365.current_value ∧
      assetSL3at365.current_value ≤ (assetSL3at365.purchase_price : ℝ)) := by
  have hdv : assetSL3.depValue 365 = some ((1607500 / 1461 : ℚ) : ℝ) := by
    simp only [Asset.depValue, assetSL3]
    norm_num [yearsPassed]
  have hdep : assetSL3.depreciate 365 = some assetSL3at365 := by
    rw [Asset.depreciate, if_neg (by norm_num [assetSL3]), hdv]
    rfl
  have hloop : depLoop [((⟨1⟩ : UUID), assetSL3)] 365 =
      (Except.ok (), [((⟨1⟩ : UUID), assetSL3at365)]) := by
    simp [depLoop, hdep]
  have hall : AssetService.depreciate_all_assets svcSL3 365 =
      (Except.ok (), svcSL3at365) := by
    simp only [AssetService.depreciate_all_assets, svcSL3, hloop]
    rfl
  refine ⟨hall, List.mem_singleton.mpr rfl, rfl, by decide, by decide, by decide,
    by decide, ?_⟩
  exact c1_value_bounds_after_revalue svcSL3 365 svcSL3at365 hall ⟨1⟩ assetSL3at365
    (List.mem_singleton.mpr rfl) rfl (by decide) (by decide) (by decide) (by decide)

/-- Counterexample to claim C1 as stated ("any as-of date"): revaluing
the example straight-line asset as of one year before its purchase date
succeeds and computes `current_value = 2775500 / 1461 ≈ 1899.73`, above
the 1500.00 purchase price. -/
theorem c1_value_bounds_counterexample :
    AssetService.depreciate_all_assets svcSL3 (-365) = (Except.ok (), svcSL3before) ∧
    (assetSL3before.purchase_price : ℝ) < assetSL3before.current_value := by
  have hdv : assetSL3.depValue (-365) = some ((2775500 / 1461 : ℚ) : ℝ) := by
    simp only [Asset.depValue, assetSL3]
    norm_num [yearsPassed]
  have hdep : assetSL3.depreciate (-365) = some assetSL3before := by
    rw [Asset.depreciate, if_neg (by norm_num [assetSL3]), hdv]
    rfl
  have hloop : depLoop [((⟨1⟩ : UUID), assetSL3)] (-365) =
      (Except.ok (), [((⟨1⟩ : UUID), assetSL3before)]) := by
    simp [depLoop, hdep]
  refine ⟨?_, ?_⟩
  · simp only [AssetService.depreciate_all_assets, svcSL3, hloop]
    rfl
  · have : (1500 : ℚ) < 2775500 / 1461 := by norm_num
    have hcast : ((1500 : ℚ) : ℝ) < ((2775500 / 1461 : ℚ) : ℝ) := by exact_mod_cast this
    simpa [assetSL3before, assetSL3] using hcast

/-- Claim C4: for an Active declining-balance asset with a positive
useful life and non-negative purchase price, whenever `depreciate`
succeeds at two as-of dates, the later date never yields a larger
`current_value` — the computed value is non-increasing in the as-of
date. -/
theorem c4_declining_balance_antitone (a : Asset) (d1 d2 : ℤ) (a1 a2 : Asset)
    (hst : a.status = AssetStatus.active)
    (hmth : a.depreciation_method = DepreciationMethod.declining_balance)
    (hul : 1 ≤ a.useful_life_years)
    (hpp : 0 ≤ a.purchase_price)
    (hd : d1 ≤ d2)
    (h1 : a.depreciate d1 = some a1) (h2 : a.depreciate d2 = some a2) :
    a2.current_value ≤ a1.current_value := by
  rw [Asset.depreciate, if_neg (by simp [hst]), Option.map_eq_some'] at h1 h2
  obtain ⟨v1, hv1, rfl⟩ := h1
  obtain ⟨v2, hv2, rfl⟩ := h2
  show v2 ≤ v1
  have hpp' : (0 : ℝ) ≤ (a.purchase_price : ℝ) := by exact_mod_cast hpp
  have hy12 : yearsPassed a.purchase_date d1 ≤ yearsPassed a.purchase_date d2 :=
    yearsPassed_mono a.purchase_date hd
  simp only [Asset.depValue, hmth] at hv1 hv2
  by_cases hcl2 : (a.useful_life_years : ℚ) < yearsPassed a.purchase_date d2
  · rw [if_pos hcl2] at hv2
    cases Option.some.inj hv2
    by_cases hcl1 : (a.useful_life_years : ℚ) < yearsPassed a.purchase_date d1
    · rw [if_pos hcl1] at hv1
      cases Option.some.inj hv1
      exact le_rfl
    · rw [if_neg hcl1, if_neg (by omega : ¬ a.useful_life_years = 0),
        Option.map_eq_some'] at hv1
      obtain ⟨p1, hp1, rfl⟩ := hv1
      exact le_max_right _ _
  · have hcl1 : ¬ (a.useful_life_years : ℚ) < yearsPassed a.purchase_date d1 :=
      fun hc => hcl2 (lt_of_lt_of_le hc hy12)
    rw [if_neg hcl1, if_neg (by omega : ¬ a.useful_life_years = 0),
      Option.map_eq_some'] at hv1
    rw [if_neg hcl2, if_neg (by omega : ¬ a.useful_life_years = 0),
      Option.map_eq_some'] at hv2
    obtain ⟨p1, hp1, rfl⟩ := hv1
    obtain ⟨p2, hp2, rfl⟩ := hv2
    rcases (by omega : a.useful_life_years = 1 ∨ a.useful_life_years = 2 ∨
        3 ≤ a.useful_life_years) with hu1 | hu2 | hu3
    · -- useful life 1: both defined values are purchase_price
      rw [hu1] at hp1 hp2
      norm_num [decPow] at hp1 hp2
      obtain ⟨hden1, hp1v⟩ := hp1
      obtain ⟨hden2, hp2v⟩ := hp2
      rw [← hp1v, ← hp2v,
        neg_one_zpow_of_even (yearsPassed_num_even _ _ hden1),
        neg_one_zpow_of_even (yearsPassed_num_even _ _ hden2)]
    · -- useful life 2: both defined values are the salvage value
      rw [hu2] at hp1 hp2
      norm_num [decPow] at hp1 hp2
      obtain ⟨-, hp1v⟩ := hp1
      obtain ⟨-, hp2v⟩ := hp2
      rw [← hp1v, ← hp2v]
    · -- useful life at least 3: real power with base in (0,1) is antitone
      have h3q : (3 : ℚ) ≤ (a.useful_life_years : ℚ) := by exact_mod_cast hu3
      have hulq : (0 : ℚ) < (a.useful_life_years : ℚ) := by linarith
      have hb0 : (0 : ℚ) < 1 - 2 / (a.useful_life_years : ℚ) := by
        rw [sub_pos, div_lt_one (by linarith)]
        linarith
      have hb1 : (1 : ℚ) - 2 / (a.useful_life_years : ℚ) ≤ 1 := by
        have h2n : 0 ≤ 2 / (a.useful_life_years : ℚ) :=
          div_nonneg (by norm_num) (le_of_lt hulq)
        linarith
      simp only [decPow] at hp1 hp2
      rw [if_pos hb0] at hp1 hp2
      cases Option.some.inj hp1
      cases Option.some.inj hp2
      have hmono : Real.rpow ((1 - 2 / (a.useful_life_years : ℚ) : ℚ) : ℝ)
            ((yearsPassed a.purchase_date d2 : ℚ) : ℝ) ≤
          Real.rpow ((1 - 2 / (a.useful_life_years : ℚ) : ℚ) : ℝ)
            ((yearsPassed a.purchase_date d1 : ℚ) : ℝ) :=
        Real.rpow_le_rpow_of_exponent_ge (by exact_mod_cast hb0)
          (by exact_mod_cast hb1) (by exact_mod_cast hy12)
      exact max_le_max (mul_le_mul_of_nonneg_left hmono hpp') le_rfl

/-- Witness for C4: the declining-balance example asset is worth
1500.00 at its purchase date and 300.00 at day 1461, and the theorem
confirms the later value is not larger. -/
theorem c4_declining_balance_antitone_witness :
    assetDB.status = AssetStatus.active ∧
    assetDB.depreciation_method = DepreciationMethod.declining_balance ∧
    1 ≤ assetDB.useful_life_years ∧
    0 ≤ assetDB.purchase_price ∧
    ((0 : ℤ) ≤ 1461) ∧
    assetDB.depreciate 0 = some assetDBat0 ∧
    assetDB.depreciate 1461 = some assetDBat1461 ∧
    assetDBat1461.current_value ≤ assetDBat0.current_value := by
  have hdv0 : assetDB.depValue 0 = some ((1500 : ℝ)) := by
    simp only [Asset.depValue, assetDB, assetSL3]
    norm_num [yearsPassed, decPow, Real.rpow_zero]
  have hdep0 : assetDB.depreciate 0 = some assetDBat0 := by
    rw [Asset.depreciate, if_neg (by norm_num [assetDB, assetSL3]), hdv0]
    rfl
  have hdv1 : assetDB.depValue 1461 = some ((300 : ℝ)) := by
    simp only [Asset.depValue, assetDB, assetSL3]
    norm_num [yearsPassed]
  have hdep1 : assetDB.depreciate 1461 = some assetDBat1461 := by
    rw [Asset.depreciate, if_neg (by norm_num [assetDB, assetSL3]), hdv1]
    rfl
  exact ⟨rfl, rfl, by decide, by decide, by decide, hdep0, hdep1,
    c4_declining_balance_antitone assetDB 0 1461 assetDBat0 assetDBat1461
      rfl rfl (by decide) (by decide) (by decide) hdep0 hdep1⟩
